import Mathlib

/-!
Verification of the MIE memory-graph engine (kraklabs/mie).

This file gives a shallow embedding of the tool layer (pkg/tools: Store,
BulkStore, relationship handling) and of the reader's query semantics
(pkg/memory reader: semantic search, exact search, fixed traversals, list),
and proves the specification claims about them.

Modelling conventions:
* Go `map[string]any` argument bags are modelled by `JVal` / `JObj`;
  JSON numbers (Go float64) are modelled as exact rationals.
* The storage substrate and the embedding provider are external
  collaborators (spec section 1); their responses are oracles: a `Querier`
  record of response functions for writes, a candidate function for HNSW
  index probes, and an explicit relation store `DB` for relational joins.
* Effectful tool code returns, next to its result, the list of substrate
  calls it performed (`CallEvent`), so that claims about which operations
  were or were not performed are statable.
* Go's `sort.Slice` (an unspecified-order comparison sort) is modelled by
  insertion sort on the distance key.
-/

namespace Mie

/-- JSON-like dynamic values as decoded from the tool protocol
(Go `map[string]any`); numbers are exact rationals. -/
inductive JVal where
  | null
  | bool (b : Bool)
  | num (q : ℚ)
  | str (s : String)
  | arr (xs : List JVal)
  | obj (fields : List (String × JVal))

/-- An argument bag: a Go `map[string]any` (keys unique, first match wins). -/
abbrev JObj := List (String × JVal)

/-- Map lookup on an argument bag. -/
def jlookup (m : JObj) (k : String) : Option JVal :=
  (m.find? (fun p => p.1 = k)).map (fun p => p.2)

/-- Go map indexing `m[k]`: absent keys give the zero value `nil`. -/
def mget (m : JObj) (k : String) : JVal :=
  (jlookup m k).getD .null

/-- Truncation of a rational to an integer, as Go `int(float64)` truncates
toward zero. -/
def ratTrunc (q : ℚ) : Int :=
  if q < 0 then -((-q).floor) else q.floor

/-- Modelled from the spec: tool arguments arrive as unstructured property
bags and are decoded field-by-field (spec section 9, pkg/tools argument
helpers are not under src/); returns the string stored under `key`, or the
default when the key is absent or not a string. -/
def GetStringArg (args : JObj) (key dflt : String) : String :=
  match jlookup args key with
  | some (.str s) => s
  | _ => dflt

/-- Modelled from the spec: numeric argument accessor (pkg/tools argument
helpers are not under src/). -/
def GetFloat64Arg (args : JObj) (key : String) (dflt : ℚ) : ℚ :=
  match jlookup args key with
  | some (.num q) => q
  | _ => dflt

/-- Modelled from the spec: integer argument accessor (pkg/tools argument
helpers are not under src/); JSON numbers are truncated as Go does. -/
def GetIntArg (args : JObj) (key : String) (dflt : Int) : Int :=
  match jlookup args key with
  | some (.num q) => ratTrunc q
  | _ => dflt

/-- Modelled from the spec: boolean argument accessor (pkg/tools argument
helpers are not under src/). -/
def GetBoolArg (args : JObj) (key : String) (dflt : Bool) : Bool :=
  match jlookup args key with
  | some (.bool b) => b
  | _ => dflt

/-- Modelled from the spec: rendering helper shortening text for display
(pkg/tools helpers are not under src/). -/
def Truncate (s : String) (n : Nat) : String :=
  if s.length ≤ n then s else (s.take n) ++ "..."

/-- Modelled from the spec: a tool call result: text plus an error flag
(`isError` on the wire; pkg/tools result type is not under src/). -/
structure ToolResult where
  text : String
  isError : Bool
  deriving DecidableEq

/-- Modelled from the spec: successful tool result constructor. -/
def NewResult (s : String) : ToolResult := ⟨s, false⟩

/-- Modelled from the spec: error tool result constructor. -/
def NewError (s : String) : ToolResult := ⟨s, true⟩

/-! Node and request records, per pkg/tools/query.go (type declarations). -/

structure Fact where
  id : String
  content : String
  category : String
  confidence : ℚ
  sourceAgent : String
  sourceConversation : String
  valid : Bool
  createdAt : Int
  updatedAt : Int
  deriving DecidableEq

structure Decision where
  id : String
  title : String
  rationale : String
  alternatives : String
  context : String
  sourceAgent : String
  sourceConversation : String
  status : String
  createdAt : Int
  updatedAt : Int
  deriving DecidableEq

structure Entity where
  id : String
  name : String
  kind : String
  description : String
  sourceAgent : String
  createdAt : Int
  updatedAt : Int
  deriving DecidableEq

structure Event where
  id : String
  title : String
  description : String
  eventDate : String
  sourceAgent : String
  sourceConversation : String
  createdAt : Int
  updatedAt : Int
  deriving DecidableEq

structure Topic where
  id : String
  name : String
  description : String
  createdAt : Int
  updatedAt : Int
  deriving DecidableEq

structure StoreFactRequest where
  content : String
  category : String
  confidence : ℚ
  sourceAgent : String
  sourceConversation : String
  deriving DecidableEq

structure StoreDecisionRequest where
  title : String
  rationale : String
  alternatives : String
  context : String
  sourceAgent : String
  sourceConversation : String
  deriving DecidableEq

structure StoreEntityRequest where
  name : String
  kind : String
  description : String
  sourceAgent : String
  deriving DecidableEq

structure StoreEventRequest where
  title : String
  description : String
  eventDate : String
  sourceAgent : String
  sourceConversation : String
  deriving DecidableEq

structure StoreTopicRequest where
  name : String
  description : String
  deriving DecidableEq

/-- A substrate/engine call performed by a tool handler, recorded so that
claims about which operations run (or do not run) are statable. -/
inductive CallEvent where
  | storeFact (req : StoreFactRequest)
  | storeDecision (req : StoreDecisionRequest)
  | storeEntity (req : StoreEntityRequest)
  | storeEvent (req : StoreEventRequest)
  | storeTopic (req : StoreTopicRequest)
  | invalidateFact (oldFactID newFactID reason : String)
  | addRelationship (table : String) (fields : List (String × String))
  | incrementCounter (key : String)
  deriving DecidableEq

/-- Response oracle for the memory client (tools.Querier interface): each
write operation either succeeds with its materialized value or fails with a
message. The oracle abstracts the memory.Writer and the storage substrate,
which are external to the tool layer. -/
structure Querier where
  storeFactR : StoreFactRequest → Except String Fact
  storeDecisionR : StoreDecisionRequest → Except String Decision
  storeEntityR : StoreEntityRequest → Except String Entity
  storeEventR : StoreEventRequest → Except String Event
  storeTopicR : StoreTopicRequest → Except String Topic
  invalidateFactR : String → String → String → Except String Unit
  addRelationshipR : String → List (String × String) → Except String Unit
  incrementCounterR : String → Except String Unit

/-! Embedding of pkg/tools/store.go. -/

/-- The literal `0.8` of pkg/tools/store.go (default and coercion target for
fact confidence), represented as the exact rational 4/5. -/
def confDefault : ℚ := Rat.mk' 4 5

/-- Allowed fact categories (`validFactCategories`, pkg/tools/store.go). -/
def validFactCategories (c : String) : Bool :=
  (["personal", "professional", "preference",
    "technical", "relationship", "general"]).contains c

/-- Allowed entity kinds (`validEntityKinds`, pkg/tools/store.go). -/
def validEntityKinds (k : String) : Bool :=
  (["person", "company", "project", "product",
    "technology", "place", "other"]).contains k

/-- Allowed relationship edge types (`validEdgeTypes`, pkg/tools/store.go). -/
def validEdgeTypes (e : String) : Bool :=
  (["fact_entity", "fact_topic", "decision_topic",
    "decision_entity", "event_decision", "entity_topic"]).contains e

/-- `storeFact` (pkg/tools/store.go): requires content; coerces an unknown
category to general and an out-of-range confidence to 0.8, then calls
`client.StoreFact` with the coerced request. -/
def storeFact (client : Querier) (args : JObj)
    (sourceAgent sourceConversation : String) :
    Except String Fact × List CallEvent :=
  let content := GetStringArg args "content" ""
  if content = "" then (.error "content is required for fact type", [])
  else
    let category0 := GetStringArg args "category" "general"
    let category := if validFactCategories category0 then category0 else "general"
    let confidence0 := GetFloat64Arg args "confidence" confDefault
    let confidence :=
      if confidence0 ≤ 0 ∨ (1 : ℚ) < confidence0 then confDefault else confidence0
    let req : StoreFactRequest :=
      { content := content, category := category, confidence := confidence,
        sourceAgent := sourceAgent, sourceConversation := sourceConversation }
    (client.storeFactR req, [.storeFact req])

/-- `storeDecision` (pkg/tools/store.go). -/
def storeDecision (client : Querier) (args : JObj)
    (sourceAgent sourceConversation : String) :
    Except String Decision × List CallEvent :=
  let title := GetStringArg args "title" ""
  if title = "" then (.error "title is required for decision type", [])
  else
    let rationale := GetStringArg args "rationale" ""
    if rationale = "" then (.error "rationale is required for decision type", [])
    else
      let req : StoreDecisionRequest :=
        { title := title, rationale := rationale,
          alternatives := GetStringArg args "alternatives" "[]",
          context := GetStringArg args "context" "",
          sourceAgent := sourceAgent, sourceConversation := sourceConversation }
      (client.storeDecisionR req, [.storeDecision req])

/-- `storeEntity` (pkg/tools/store.go): name and kind required; the kind is
validated strictly against `validEntityKinds` and never coerced. -/
def storeEntity (client : Querier) (args : JObj) (sourceAgent : String) :
    Except String Entity × List CallEvent :=
  let name := GetStringArg args "name" ""
  if name = "" then (.error "name is required for entity type", [])
  else
    let kind := GetStringArg args "kind" ""
    if kind = "" then (.error "kind is required for entity type", [])
    else if ¬ validEntityKinds kind then
      (.error ("invalid entity kind \"" ++ kind ++
        "\". Must be one of: person, company, project, product, technology, place, other"), [])
    else
      let req : StoreEntityRequest :=
        { name := name, kind := kind,
          description := GetStringArg args "description" "",
          sourceAgent := sourceAgent }
      (client.storeEntityR req, [.storeEntity req])

/-- `storeEvent` (pkg/tools/store.go). -/
def storeEvent (client : Querier) (args : JObj)
    (sourceAgent sourceConversation : String) :
    Except String Event × List CallEvent :=
  let title := GetStringArg args "title" ""
  if title = "" then (.error "title is required for event type", [])
  else
    let eventDate := GetStringArg args "event_date" ""
    if eventDate = "" then (.error "event_date is required for event type", [])
    else
      let req : StoreEventRequest :=
        { title := title, description := GetStringArg args "description" "",
          eventDate := eventDate,
          sourceAgent := sourceAgent, sourceConversation := sourceConversation }
      (client.storeEventR req, [.storeEvent req])

/-- `storeTopic` (pkg/tools/store.go): topic names are lower-cased. -/
def storeTopic (client : Querier) (args : JObj) :
    Except String Topic × List CallEvent :=
  let name := GetStringArg args "name" ""
  if name = "" then (.error "name is required for topic type", [])
  else
    let req : StoreTopicRequest :=
      { name := name.toLower, description := GetStringArg args "description" "" }
    (client.storeTopicR req, [.storeTopic req])

/-- `storeNode` (pkg/tools/store.go): dispatch on the node type, returning
the assigned id and a display summary; an unknown type yields an empty id
with no error, as in the source. Summary strings follow the source format
(numeric formatting is approximated by `toString`). -/
def storeNode (client : Querier) (args : JObj) (nodeType : String) :
    Except String (String × String) × List CallEvent :=
  let sourceAgent := GetStringArg args "source_agent" "unknown"
  let sourceConversation := GetStringArg args "source_conversation" ""
  match nodeType with
  | "fact" =>
    match storeFact client args sourceAgent sourceConversation with
    | (.error e, tr) => (.error e, tr)
    | (.ok f, tr) =>
      (.ok (f.id, "Content: \"" ++ Truncate f.content 100 ++ "\"\nCategory: " ++
        f.category ++ " | Confidence: " ++ toString f.confidence ++
        " | Source: " ++ f.sourceAgent), tr)
  | "decision" =>
    match storeDecision client args sourceAgent sourceConversation with
    | (.error e, tr) => (.error e, tr)
    | (.ok d, tr) =>
      (.ok (d.id, "Title: \"" ++ Truncate d.title 100 ++ "\"\nRationale: " ++
        Truncate d.rationale 100 ++ "\nStatus: " ++ d.status ++
        " | Source: " ++ d.sourceAgent), tr)
  | "entity" =>
    match storeEntity client args sourceAgent with
    | (.error e, tr) => (.error e, tr)
    | (.ok en, tr) =>
      let summary := "Name: \"" ++ en.name ++ "\"\nKind: " ++ en.kind ++
        " | Source: " ++ en.sourceAgent
      let summary := if en.description ≠ "" then
          summary ++ "\nDescription: " ++ Truncate en.description 100
        else summary
      (.ok (en.id, summary), tr)
  | "event" =>
    match storeEvent client args sourceAgent sourceConversation with
    | (.error e, tr) => (.error e, tr)
    | (.ok ev, tr) =>
      (.ok (ev.id, "Title: \"" ++ Truncate ev.title 100 ++ "\"\nDate: " ++
        ev.eventDate ++ " | Source: " ++ ev.sourceAgent), tr)
  | "topic" =>
    match storeTopic client args with
    | (.error e, tr) => (.error e, tr)
    | (.ok tp, tr) =>
      let summary := "Name: \"" ++ tp.name ++ "\""
      let summary := if tp.description ≠ "" then
          summary ++ "\nDescription: " ++ Truncate tp.description 100
        else summary
      (.ok (tp.id, summary), tr)
  | _ => (.ok ("", ""), [])

/-- `handleInvalidation` (pkg/tools/store.go): when the `invalidates`
argument is present, it must be a fact id and the invalidation must succeed,
otherwise an error tool result is produced. -/
def handleInvalidation (client : Querier) (args : JObj) (nodeID : String) :
    (Option ToolResult × String) × List CallEvent :=
  let invalidates := GetStringArg args "invalidates" ""
  if invalidates = "" then ((none, ""), [])
  else if ¬ invalidates.startsWith "fact:" then
    ((some (NewError ("invalidates must reference a fact ID (got \"" ++
      invalidates ++ "\")")), ""), [])
  else
    let reason := "Replaced by " ++ nodeID
    match client.invalidateFactR invalidates nodeID reason with
    | .error e =>
      ((some (NewError ("Failed to invalidate fact " ++ invalidates ++ ": " ++ e)), ""),
        [.invalidateFact invalidates nodeID reason])
    | .ok _ =>
      ((none, "\nInvalidated: [" ++ invalidates ++ "]\nReason: " ++ reason),
        [.invalidateFact invalidates nodeID reason])

/-- `buildEdgeFields` (pkg/tools/store.go): field map for each edge type. -/
def buildEdgeFields (edgeType sourceNodeID targetID : String) (relMap : JObj) :
    List (String × String) :=
  match edgeType with
  | "fact_entity" => [("fact_id", sourceNodeID), ("entity_id", targetID)]
  | "fact_topic" => [("fact_id", sourceNodeID), ("topic_id", targetID)]
  | "decision_topic" => [("decision_id", sourceNodeID), ("topic_id", targetID)]
  | "decision_entity" =>
    let base := [("decision_id", sourceNodeID), ("entity_id", targetID)]
    let role := GetStringArg relMap "role" ""
    if role ≠ "" then base ++ [("role", role)] else base
  | "event_decision" => [("event_id", sourceNodeID), ("decision_id", targetID)]
  | "entity_topic" => [("entity_id", sourceNodeID), ("topic_id", targetID)]
  | _ => []

/-- One step of the `storeRelationships` loop (pkg/tools/store.go). -/
def storeRelStep (client : Querier) (sourceNodeID : String)
    (acc : String × List CallEvent) (rel : JVal) : String × List CallEvent :=
  match rel with
  | .obj relMap =>
    let edgeType := GetStringArg relMap "edge" ""
    let targetID := GetStringArg relMap "target_id" ""
    if edgeType = "" ∨ targetID = "" then acc
    else if ¬ validEdgeTypes edgeType then
      (acc.1 ++ "- Skipped invalid edge type: " ++ edgeType ++ "\n", acc.2)
    else
      let fields := buildEdgeFields edgeType sourceNodeID targetID relMap
      let tableName := "mie_" ++ edgeType
      match client.addRelationshipR tableName fields with
      | .error e =>
        (acc.1 ++ "- Failed " ++ edgeType ++ " -> [" ++ targetID ++ "]: " ++ e ++ "\n",
          acc.2 ++ [.addRelationship tableName fields])
      | .ok _ =>
        (acc.1 ++ "- " ++ edgeType ++ " -> [" ++ targetID ++ "]\n",
          acc.2 ++ [.addRelationship tableName fields])
  | _ => acc

/-- `storeRelationships` (pkg/tools/store.go): iterate over the relationship
specifications, skipping malformed entries, and insert each valid edge. -/
def storeRelationships (client : Querier) (sourceNodeID : String) (rels : JVal) :
    String × List CallEvent :=
  match rels with
  | .arr relSlice => relSlice.foldl (storeRelStep client sourceNodeID) ("", [])
  | _ => ("", [])

/-- `Store` (pkg/tools/store.go): store one node, then handle invalidation
(aborting on its failure), then relationships, then bump the store counter. -/
def Store (client : Querier) (args : JObj) : ToolResult × List CallEvent :=
  let nodeType := GetStringArg args "type" ""
  if nodeType = "" then (NewError "Missing required parameter: type", [])
  else
    match storeNode client args nodeType with
    | (.error e, tr) => (NewError ("Failed to store " ++ nodeType ++ ": " ++ e), tr)
    | (.ok (nodeID, summary), tr) =>
      if nodeID = "" then
        (NewError ("Invalid type \"" ++ nodeType ++
          "\". Must be one of: fact, decision, entity, event, topic"), tr)
      else
        match handleInvalidation client args nodeID with
        | ((some toolErr, _), tr2) => (toolErr, tr ++ tr2)
        | ((none, invalidationMsg), tr2) =>
          let (relMsg, tr3) :=
            match jlookup args "relationships" with
            | some .null => ("", [])
            | some rels => storeRelationships client nodeID rels
            | none => ("", [])
          let tr4 := [CallEvent.incrementCounter "total_stores"]
          let output := "Stored " ++ nodeType ++ " [" ++ nodeID ++ "]\n" ++ summary
          let output :=
            if relMsg ≠ "" then output ++ "\n\nRelationships created:\n" ++ relMsg
            else output
          let output :=
            if invalidationMsg ≠ "" then output ++ "\n" ++ invalidationMsg
            else output
          (NewResult output, tr ++ tr2 ++ tr3 ++ tr4)

/-! Embedding of the bulk-ingest operator (BulkStore and resolveBatchRefs,
src/unnamed/part_006). -/

/-- `maxBulkItems` (bulk source file). -/
def maxBulkItems : Nat := 50

/-- `bulkItem`: result of storing a single item of a bulk operation; a
failed item keeps the zero value (empty node id). -/
structure BulkItem where
  nodeID : String
  nodeType : String
  summary : String
  deriving DecidableEq

/-- `toInt` (bulk source file): JSON numbers convert by truncation, any
other value yields -1. -/
def toInt (v : JVal) : Int :=
  match v with
  | .num q => ratTrunc q
  | _ => -1

/-- One step of the `resolveBatchRefs` loop: a relationship with a
`target_ref` index is either rewritten to carry the resolved `target_id` or
skipped; one without `target_ref` passes through; a non-object entry is
skipped. -/
def resolveBatchRefsStep (stored : List BulkItem)
    (acc : List JVal) (rel : JVal) : List JVal :=
  match rel with
  | .obj relMap =>
    match jlookup relMap "target_ref" with
    | some refIdx =>
      let idx := toInt refIdx
      if idx < 0 ∨ (stored.length : Int) ≤ idx then acc
      else
        let it := stored.getD idx.toNat ⟨"", "", ""⟩
        if it.nodeID = "" then acc
        else
          acc ++ [JVal.obj [("edge", mget relMap "edge"),
            ("target_id", .str it.nodeID), ("role", mget relMap "role")]]
    | none => acc ++ [JVal.obj relMap]
  | _ => acc

/-- `resolveBatchRefs` (bulk source file): replace `target_ref` index
references with the ids assigned to the referenced batch items, dropping
relationships whose reference is out of range or points at a failed item. -/
def resolveBatchRefs (rels : JVal) (stored : List BulkItem) : List JVal :=
  match rels with
  | .arr relSlice => relSlice.foldl (resolveBatchRefsStep stored) []
  | _ => []

/-- Phase 1 of `BulkStore`: store each item in order (index `i` onward),
recording per-item results, error strings, and the substrate calls. -/
def bulkStoreItems (client : Querier) :
    Nat → List JVal → List BulkItem × List String × List CallEvent
  | _, [] => ([], [], [])
  | i, raw :: rest =>
    let (item, errs, tr) :=
      match raw with
      | .obj itemArgs =>
        let nodeType := GetStringArg itemArgs "type" ""
        if nodeType = "" then
          ((⟨"", "", ""⟩ : BulkItem),
            ["item[" ++ toString i ++ "]: missing required parameter: type"], [])
        else
          match storeNode client itemArgs nodeType with
          | (.error e, tr) =>
            ((⟨"", "", ""⟩ : BulkItem),
              ["item[" ++ toString i ++ "] (" ++ nodeType ++ "): " ++ e], tr)
          | (.ok (nodeID, summary), tr) =>
            if nodeID = "" then
              ((⟨"", "", ""⟩ : BulkItem),
                ["item[" ++ toString i ++ "]: invalid type \"" ++ nodeType ++ "\""], tr)
            else ((⟨nodeID, nodeType, summary⟩ : BulkItem), [], tr)
      | _ =>
        ((⟨"", "", ""⟩ : BulkItem),
          ["item[" ++ toString i ++ "]: not a valid object"], [])
    let (items, errs2, tr2) := bulkStoreItems client (i + 1) rest
    (item :: items, errs ++ errs2, tr ++ tr2)

/-- Phase 2 of `BulkStore`: for each successfully stored item, handle its
invalidation and its relationships (with intra-batch reference resolution
against the full `storedAll` array), accumulating error strings,
relationship messages, and substrate calls. -/
def bulkPhase2 (client : Querier) (storedAll : List BulkItem) :
    Nat → List (JVal × BulkItem) → List String × List String × List CallEvent
  | _, [] => ([], [], [])
  | i, (raw, item) :: rest =>
    let (errs, rels, tr) :=
      if item.nodeID = "" then ([], [], [])
      else
        let itemArgs := match raw with | .obj m => m | _ => []
        let ((toolErr, invMsg), tr1) := handleInvalidation client itemArgs item.nodeID
        let (e1, m1) :=
          match toolErr with
          | some te => (["item[" ++ toString i ++ "] invalidation: " ++ te.text], [])
          | none =>
            ([], if invMsg ≠ "" then ["item[" ++ toString i ++ "]" ++ invMsg] else [])
        let (m2, tr2) :=
          match jlookup itemArgs "relationships" with
          | some .null => ("", [])
          | some rels0 =>
            let resolved := resolveBatchRefs rels0 storedAll
            storeRelationships client item.nodeID (.arr resolved)
          | none => ("", [])
        let relMsgs := m1 ++ (if m2 ≠ "" then ["item[" ++ toString i ++ "]:\n" ++ m2] else [])
        (e1, relMsgs, tr1 ++ tr2)
    let (errs2, rels2, tr3) := bulkPhase2 client storedAll (i + 1) rest
    (errs ++ errs2, rels ++ rels2, tr ++ tr3)

/-- `BulkStore` (bulk source file): validate the items array (non-empty,
at most `maxBulkItems`), store all nodes (phase 1), then handle
invalidations and relationships for the stored ones (phase 2), then build
the combined report and bump the store counter once per stored node.
Failures of individual items are reported in the text but never make the
overall result an error. -/
def BulkStore (client : Querier) (args : JObj) : ToolResult × List CallEvent :=
  match jlookup args "items" with
  | none => (NewError "Missing required parameter: items", [])
  | some .null => (NewError "Missing required parameter: items", [])
  | some (.arr itemSlice) =>
    if itemSlice.length = 0 then (NewError "items must be a non-empty array", [])
    else if maxBulkItems < itemSlice.length then
      (NewError ("Too many items: " ++ toString itemSlice.length ++
        " (max " ++ toString maxBulkItems ++ ")"), [])
    else
      let (stored, errors1, tr1) := bulkStoreItems client 0 itemSlice
      let (errors2, relMessages, tr2) := bulkPhase2 client stored 0 (itemSlice.zip stored)
      let errors := errors1 ++ errors2
      let parts := (["fact", "decision", "entity", "event", "topic"]).filterMap
        (fun nt =>
          let c := (stored.filter (fun it => it.nodeID ≠ "" ∧ it.nodeType = nt)).length
          if c > 0 then some (toString c ++ " " ++ nt ++ "s") else none)
      let totalStored := (stored.filter (fun it => it.nodeID ≠ "")).length
      let sb := "Stored " ++ toString totalStored ++ " items: " ++
        String.intercalate ", " parts ++ "\n"
      let tr3 := (List.range totalStored).map
        (fun _ => CallEvent.incrementCounter "total_stores")
      let idLines := (stored.enum.filterMap (fun p =>
        if p.2.nodeID ≠ "" then
          some ("  [" ++ toString p.1 ++ "] " ++ p.2.nodeType ++
            " [" ++ p.2.nodeID ++ "]\n")
        else none))
      let sb := sb ++ "\nIDs:\n" ++ String.join idLines
      let sb :=
        if relMessages.length > 0 then
          sb ++ "\nRelationships:\n" ++ String.join relMessages
        else sb
      let sb :=
        if errors.length > 0 then
          sb ++ "\nErrors (" ++ toString errors.length ++ "):\n" ++
            String.join (errors.map (fun e => "  - " ++ e ++ "\n"))
        else sb
      (NewResult sb, tr1 ++ tr2 ++ tr3)
  | some _ => (NewError "items must be a non-empty array", [])

/-! Embedding of the reader (src/unnamed/part_003). The storage substrate
executes the CozoScript the reader emits; here the relations are an explicit
`DB` value and each emitted script is given its relational meaning directly:
an HNSW index probe is an oracle returning (id, distance) candidates, and
the joins, filters, ordering and limits written in the scripts are computed
over `DB`. -/

/-- The node and edge relations the reader's queries range over. -/
structure DB where
  facts : List Fact
  decisions : List Decision
  entities : List Entity
  events : List Event
  topics : List Topic
  factEntity : List (String × String)

/-- A search hit as assembled by `parseSearchResult`: node type tag, id,
primary text, secondary detail, and the raw index distance (0 for exact
search, which selects no distance column). The `Metadata` convenience copy
of the same columns is omitted. -/
structure SearchResult where
  nodeType : String
  id : String
  content : String
  detail : String
  distance : ℚ
  deriving DecidableEq

/-- Candidate rows returned by one HNSW index probe: (node id, distance). -/
abbrev IdxRows := List (String × ℚ)

/-- One index probe as written into the emitted script: the variant whose
index is queried, the candidate count `k`, and the candidate pool `ef`. -/
structure IdxCall where
  variant : String
  k : Int
  ef : Int
  deriving DecidableEq

/-- Insertion step for sorting search results by ascending distance. -/
def insertByDist (x : SearchResult) : List SearchResult → List SearchResult
  | [] => [x]
  | y :: ys => if x.distance ≤ y.distance then x :: y :: ys else y :: insertByDist x ys

/-- Ascending-distance sort, modelling Go `sort.Slice` on the distance key
(and the `:order distance` directive of the emitted scripts). -/
def sortByDistance (l : List SearchResult) : List SearchResult :=
  l.foldr insertByDist []

/-- Substring test on character lists, modelling CozoScript `str_includes`. -/
def strIncludesL (sub : List Char) : List Char → Bool
  | [] => sub.isEmpty
  | c :: t => sub.isPrefixOf (c :: t) || strIncludesL sub t

/-- Substring test on strings (CozoScript `str_includes(s, sub)`). -/
def strIncludes (s sub : String) : Bool :=
  strIncludesL sub.data s.data

/-- Meaning of the per-variant semantic-search script for facts: join the
index candidates with the fact relation requiring `valid = true`, order by
distance, and keep at most `limit` rows. -/
def factSearchRows (db : DB) (cand : IdxRows) (limit : Nat) : List SearchResult :=
  let joined := cand.foldl (fun acc c =>
    acc ++ db.facts.filterMap (fun f =>
      if f.id = c.1 ∧ f.valid = true then
        some { nodeType := "fact", id := f.id, content := f.content,
               detail := f.category, distance := c.2 }
      else none)) []
  (sortByDistance joined).take limit

/-- Meaning of the per-variant semantic-search script for decisions. -/
def decisionSearchRows (db : DB) (cand : IdxRows) (limit : Nat) : List SearchResult :=
  let joined := cand.foldl (fun acc c =>
    acc ++ db.decisions.filterMap (fun d =>
      if d.id = c.1 then
        some { nodeType := "decision", id := d.id, content := d.title,
               detail := d.rationale, distance := c.2 }
      else none)) []
  (sortByDistance joined).take limit

/-- Meaning of the per-variant semantic-search script for entities. -/
def entitySearchRows (db : DB) (cand : IdxRows) (limit : Nat) : List SearchResult :=
  let joined := cand.foldl (fun acc c =>
    acc ++ db.entities.filterMap (fun en =>
      if en.id = c.1 then
        some { nodeType := "entity", id := en.id, content := en.name,
               detail := en.description, distance := c.2 }
      else none)) []
  (sortByDistance joined).take limit

/-- Meaning of the per-variant semantic-search script for events. -/
def eventSearchRows (db : DB) (cand : IdxRows) (limit : Nat) : List SearchResult :=
  let joined := cand.foldl (fun acc c =>
    acc ++ db.events.filterMap (fun ev =>
      if ev.id = c.1 then
        some { nodeType := "event", id := ev.id, content := ev.title,
               detail := ev.description, distance := c.2 }
      else none)) []
  (sortByDistance joined).take limit

/-- Dispatch of the semantic-search script meaning per node type; unknown
types yield no rows (the source skips them before querying). -/
def variantSearchRows (nt : String) (db : DB) (cand : IdxRows) (limit : Nat) :
    List SearchResult :=
  match nt with
  | "fact" => factSearchRows db cand limit
  | "decision" => decisionSearchRows db cand limit
  | "entity" => entitySearchRows db cand limit
  | "event" => eventSearchRows db cand limit
  | _ => []

/-- One step of the `SemanticSearch` loop over node types: for a known
variant, probe its index with `k = limit*5`, `ef = 200` (recording the
probe); a failed probe is logged and skipped; an unknown variant is skipped
without a probe. -/
def semanticStep (backendIdx : String → Int → Int → Except String IdxRows)
    (db : DB) (limit : Int)
    (acc : List SearchResult × List IdxCall) (nt : String) :
    List SearchResult × List IdxCall :=
  if nt = "fact" ∨ nt = "decision" ∨ nt = "entity" ∨ nt = "event" then
    let call : IdxCall := ⟨nt, limit * 5, 200⟩
    match backendIdx nt (limit * 5) 200 with
    | .error _ => (acc.1, acc.2 ++ [call])
    | .ok cand => (acc.1 ++ variantSearchRows nt db cand limit.toNat, acc.2 ++ [call])
  else acc

/-- `Reader.SemanticSearch` (src/unnamed/part_003): require an embedder,
default the limit to 10 and the node types to the four embeddable variants,
probe each requested variant's index, collect the per-variant rows, sort
the collection by ascending distance and truncate it to `limit`. The
embedder is modelled by its outcome (`none` when not configured, otherwise
the query-embedding result); the query vector itself is folded into the
index oracle. Returns the results together with the probes performed. -/
def SemanticSearch (embedder : Option (Except String Unit))
    (backendIdx : String → Int → Int → Except String IdxRows)
    (db : DB) (nodeTypes : List String) (limit0 : Int) :
    Except String (List SearchResult × List IdxCall) :=
  match embedder with
  | none => .error "semantic search requires embeddings to be enabled"
  | some genQuery =>
    let limit := if limit0 ≤ 0 then 10 else limit0
    match genQuery with
    | .error e => .error ("generate query embedding: " ++ e)
    | .ok _ =>
      let nts := if nodeTypes = [] then ["fact", "decision", "entity", "event"]
        else nodeTypes
      let p := nts.foldl (semanticStep backendIdx db limit) ([], [])
      let sorted := sortByDistance p.1
      .ok ((if limit.toNat < sorted.length then sorted.take limit.toNat else sorted),
        p.2)

/-- Meaning of the per-variant exact-search script: substring match on the
variant's text fields (facts additionally require `valid = true`), at most
`limit` rows per variant. -/
def exactRows (db : DB) (q : String) (nt : String) (limit : Nat) : List SearchResult :=
  match nt with
  | "fact" =>
    ((db.facts.filter (fun f => f.valid ∧ strIncludes f.content q)).map
      (fun f => { nodeType := "fact", id := f.id, content := f.content,
                  detail := f.category, distance := 0 })).take limit
  | "decision" =>
    ((db.decisions.filter (fun d => strIncludes d.title q ∨ strIncludes d.rationale q)).map
      (fun d => { nodeType := "decision", id := d.id, content := d.title,
                  detail := d.rationale, distance := 0 })).take limit
  | "entity" =>
    ((db.entities.filter (fun en => strIncludes en.name q ∨ strIncludes en.description q)).map
      (fun en => { nodeType := "entity", id := en.id, content := en.name,
                   detail := en.description, distance := 0 })).take limit
  | "event" =>
    ((db.events.filter (fun ev => strIncludes ev.title q ∨ strIncludes ev.description q)).map
      (fun ev => { nodeType := "event", id := ev.id, content := ev.title,
                   detail := ev.description, distance := 0 })).take limit
  | "topic" =>
    ((db.topics.filter (fun tp => strIncludes tp.name q ∨ strIncludes tp.description q)).map
      (fun tp => { nodeType := "topic", id := tp.id, content := tp.name,
                   detail := tp.description, distance := 0 })).take limit
  | _ => []

/-- `Reader.ExactSearch` (src/unnamed/part_003): substring search per
requested variant (defaulting to all five), with a failed variant scan
logged and skipped (`scanOk` models the substrate outcome), globally
truncated to `limit`. -/
def ExactSearch (scanOk : String → Bool) (db : DB) (q : String)
    (nodeTypes : List String) (limit0 : Int) : List SearchResult :=
  let limit := if limit0 ≤ 0 then 10 else limit0
  let nts := if nodeTypes = [] then ["fact", "decision", "entity", "event", "topic"]
    else nodeTypes
  let results := nts.foldl (fun acc nt =>
    if scanOk nt then acc ++ exactRows db q nt limit.toNat else acc) []
  if limit.toNat < results.length then results.take limit.toNat else results

/-- `Reader.GetRelatedEntities` (src/unnamed/part_003): entities joined to
a fact through the fact_entity relation. -/
def GetRelatedEntities (db : DB) (factID : String) : List Entity :=
  (db.factEntity.filter (fun p => p.1 == factID)).flatMap
    (fun p => db.entities.filter (fun en => en.id == p.2))

/-- `Reader.GetFactsAboutEntity` (src/unnamed/part_003): facts joined to an
entity through the fact_entity relation; the emitted script places no
condition on the fact's `valid` flag. -/
def GetFactsAboutEntity (db : DB) (entityID : String) : List Fact :=
  (db.factEntity.filter (fun p => p.2 == entityID)).flatMap
    (fun p => db.facts.filter (fun f => f.id == p.1))

/-- `Reader.GetRelatedFacts` (src/unnamed/part_003): alias for
`GetFactsAboutEntity`. -/
def GetRelatedFacts (db : DB) (entityID : String) : List Fact :=
  GetFactsAboutEntity db entityID

/-! Embedding of `Reader.ListNodes` (src/unnamed/part_003). The reader
builds one relational query; the substrate executing it is external, so the
embedding's observable is the structured content of the emitted query. -/

/-- List options (`tools.ListOptions`, pkg/tools/query.go). -/
structure ListOptions where
  nodeType : String
  category : String
  kind : String
  status : String
  topicName : String
  validOnly : Bool
  limit : Int
  offset : Int
  sortBy : String
  sortOrder : String
  deriving DecidableEq

/-- The structured content of the list query the reader emits: target
relation, selected columns, filter conditions, ordering and pagination. -/
structure ListQuery where
  table : String
  columns : String
  conditions : List String
  orderField : String
  descending : Bool
  limit : Int
  offset : Int
  deriving DecidableEq

/-- Modelled from the spec: mapping from node type to its relation name
(`nodeTypeToTable`, defined in the schema layer which is not under src/);
the relation names `mie_fact` etc. appear throughout the reader's emitted
scripts, unknown types map to the empty string (the reader treats that as
an unknown-node-type error). -/
def nodeTypeToTable (nodeType : String) : String :=
  match nodeType with
  | "fact" => "mie_fact"
  | "decision" => "mie_decision"
  | "entity" => "mie_entity"
  | "event" => "mie_event"
  | "topic" => "mie_topic"
  | _ => ""

/-- Modelled from the spec: `escapeDatalog` (not under src/) escapes a
string for inclusion in a CozoScript literal; on the identifier-like and
enumerated values the list filters use it is the identity, which is how it
is modelled here. -/
def escapeDatalog (s : String) : String := s

/-- `columnsForNodeType` (src/unnamed/part_003). -/
def columnsForNodeType (nodeType : String) : String :=
  match nodeType with
  | "fact" =>
    "id, content, category, confidence, source_agent, source_conversation, valid, created_at, updated_at"
  | "decision" =>
    "id, title, rationale, alternatives, context, source_agent, source_conversation, status, created_at, updated_at"
  | "entity" => "id, name, kind, description, source_agent, created_at, updated_at"
  | "event" =>
    "id, title, description, event_date, source_agent, source_conversation, created_at, updated_at"
  | "topic" => "id, name, description, created_at, updated_at"
  | _ => "id"

/-- `buildListConditions` (src/unnamed/part_003). -/
def buildListConditions (opts : ListOptions) : List String :=
  match opts.nodeType with
  | "fact" =>
    (if opts.category ≠ "" then
      ["category = \x27" ++ escapeDatalog opts.category ++ "\x27"] else []) ++
    (if opts.validOnly then ["valid = true"] else [])
  | "decision" =>
    if opts.status ≠ "" then
      ["status = \x27" ++ escapeDatalog opts.status ++ "\x27"] else []
  | "entity" =>
    if opts.kind ≠ "" then
      ["kind = \x27" ++ escapeDatalog opts.kind ++ "\x27"] else []
  | _ => []

/-- `Reader.ListNodes` (src/unnamed/part_003), up to the substrate
boundary: default the limit to 20 when non-positive, resolve the table,
build the conditions and the ordering (an empty `sort_by` falls back to
`created_at`; any order other than `asc` is descending), and emit the
structured query. -/
def ListNodes (opts : ListOptions) : Except String ListQuery :=
  let limit := if opts.limit ≤ 0 then 20 else opts.limit
  let table := nodeTypeToTable opts.nodeType
  if table = "" then .error ("unknown node type: " ++ opts.nodeType)
  else
    let conditions := buildListConditions opts
    let columns := columnsForNodeType opts.nodeType
    let sortBy := if opts.sortBy = "" then "created_at" else opts.sortBy
    .ok { table := table, columns := columns, conditions := conditions,
          orderField := sortBy, descending := opts.sortOrder ≠ "asc",
          limit := limit, offset := opts.offset }

/-- The column list of `columnsForNodeType`, as a list of field names (used
by the spec-modelled list tool to recognize sortable fields). -/
def columnsListForNodeType (nodeType : String) : List String :=
  match nodeType with
  | "fact" =>
    ["id", "content", "category", "confidence", "source_agent",
     "source_conversation", "valid", "created_at", "updated_at"]
  | "decision" =>
    ["id", "title", "rationale", "alternatives", "context", "source_agent",
     "source_conversation", "status", "created_at", "updated_at"]
  | "entity" =>
    ["id", "name", "kind", "description", "source_agent", "created_at", "updated_at"]
  | "event" =>
    ["id", "title", "description", "event_date", "source_agent",
     "source_conversation", "created_at", "updated_at"]
  | "topic" => ["id", "name", "description", "created_at", "updated_at"]
  | _ => ["id"]

/-- Modelled from the spec: the `mie_list` tool handler (`tools.List`) is
not under src/ (only its MCP registration and its input schema, which
declare limit default 20 / maximum 100 and sort_by default created_at,
are). Per spec section 4.4.3: "Unknown sort_by falls back to `created_at`.
Default limit 20 (max 100)." The handler decodes the argument bag into
ListOptions, clamping the limit to at most 100 (default 20), replacing a
`sort_by` that is not a column of the node type by `created_at`, and
issues the reader's list query. -/
def ListTool (args : JObj) : Except String ListQuery :=
  let nodeType := GetStringArg args "node_type" ""
  let limit0 := GetIntArg args "limit" 20
  let limit := if 100 < limit0 then 100 else limit0
  let sortBy0 := GetStringArg args "sort_by" "created_at"
  let sortBy :=
    if (columnsListForNodeType nodeType).contains sortBy0 then sortBy0
    else "created_at"
  ListNodes
    { nodeType := nodeType,
      category := GetStringArg args "category" "",
      kind := GetStringArg args "kind" "",
      status := GetStringArg args "status" "",
      topicName := GetStringArg args "topic" "",
      validOnly := GetBoolArg args "valid_only" true,
      limit := limit, offset := GetIntArg args "offset" 0,
      sortBy := sortBy,
      sortOrder := GetStringArg args "sort_order" "desc" }

/-! Specification-side definitions, written from the spec's words, for the
refinement claims on bulk reference resolution and semantic search. -/

/-- Specification-side resolution of a single bulk relationship, following
the claim: with `target_ref = j`, a successfully stored item j yields the
relationship rebuilt with `target_id = node_id[j]` (keeping its edge and
role); an out-of-range j or a failed item j drops the relationship; an
entry without `target_ref` passes through unchanged; a non-object entry is
dropped. -/
def resolveRefSpec (stored : List BulkItem) (rel : JVal) : Option JVal :=
  match rel with
  | .obj relMap =>
    match jlookup relMap "target_ref" with
    | some refIdx =>
      let j := toInt refIdx
      if h : 0 ≤ j ∧ j.toNat < stored.length then
        let it := stored.get ⟨j.toNat, h.2⟩
        if it.nodeID = "" then none
        else some (.obj [("edge", mget relMap "edge"),
          ("target_id", .str it.nodeID), ("role", mget relMap "role")])
      else none
    | none => some (.obj relMap)
  | _ => none

/-- Specification-side collection of semantic-search tuples: for each
requested variant, the rows of that variant's index query with `k = 5·limit`
and `ef = 200`, concatenated in request order. -/
def semanticCollect (idxF : String → Int → Int → IdxRows) (db : DB)
    (nts : List String) (limit : Int) : List SearchResult :=
  nts.foldl (fun acc nt =>
    acc ++ variantSearchRows nt db (idxF nt (limit * 5) 200) limit.toNat) []

/-! Concrete fixtures used by witness theorems: a client oracle whose
operations all succeed, one whose invalidation fails, and a small database.
-/

/-- A client oracle whose every operation succeeds, assigning fixed ids. -/
def wClient : Querier where
  storeFactR := fun req => .ok { id := "fact:w1", content := req.content,
                                 category := req.category,
                                 confidence := req.confidence,
                                 sourceAgent := req.sourceAgent,
                                 sourceConversation := req.sourceConversation,
                                 valid := true, createdAt := 1000, updatedAt := 1000 }
  storeDecisionR := fun req => .ok { id := "dec:w1", title := req.title,
                                     rationale := req.rationale,
                                     alternatives := req.alternatives,
                                     context := req.context,
                                     sourceAgent := req.sourceAgent,
                                     sourceConversation := req.sourceConversation,
                                     status := "active",
                                     createdAt := 1000, updatedAt := 1000 }
  storeEntityR := fun req => .ok { id := "ent:w1", name := req.name,
                                   kind := req.kind,
                                   description := req.description,
                                   sourceAgent := req.sourceAgent,
                                   createdAt := 1000, updatedAt := 1000 }
  storeEventR := fun req => .ok { id := "evt:w1", title := req.title,
                                  description := req.description,
                                  eventDate := req.eventDate,
                                  sourceAgent := req.sourceAgent,
                                  sourceConversation := req.sourceConversation,
                                  createdAt := 1000, updatedAt := 1000 }
  storeTopicR := fun req => .ok { id := "top:w1", name := req.name,
                                  description := req.description,
                                  createdAt := 1000, updatedAt := 1000 }
  invalidateFactR := fun _ _ _ => .ok ()
  addRelationshipR := fun _ _ => .ok ()
  incrementCounterR := fun _ => .ok ()

/-- A two-fact, one-entity database with one valid and one invalidated fact,
both linked to the same entity. -/
def wDb : DB where
  facts := [{ id := "fact:1", content := "sky is blue", category := "general",
              confidence := 1, sourceAgent := "t", sourceConversation := "",
              valid := true, createdAt := 1, updatedAt := 1 },
            { id := "fact:2", content := "sky is green", category := "general",
              confidence := 1, sourceAgent := "t", sourceConversation := "",
              valid := false, createdAt := 1, updatedAt := 1 }]
  decisions := []
  entities := [{ id := "ent:1", name := "Sky", kind := "other", description := "",
                 sourceAgent := "t", createdAt := 1, updatedAt := 1 }]
  events := []
  topics := []
  factEntity := [("fact:1", "ent:1"), ("fact:2", "ent:1")]

/-- An index oracle for `wDb`: the fact index returns both facts. -/
def wIdx : String → Int → Int → IdxRows :=
  fun nt _ _ => if nt = "fact" then [("fact:1", 2), ("fact:2", 1)] else []

/-- The coerced store request of the C9 witness call. -/
def wFactReq : StoreFactRequest :=
  { content := "x", category := "general", confidence := confDefault,
    sourceAgent := "unknown", sourceConversation := "" }

/-- A phase-1 result with one stored entity and one failed item. -/
def wStored : List BulkItem := [⟨"ent:ref0001", "entity", "s"⟩, ⟨"", "", ""⟩]

/-- A bulk call storing an entity and a fact that references it by index. -/
def wBulkArgs : JObj := [("items", .arr [
  .obj [("type", .str "entity"), ("name", .str "Kraklabs"),
        ("kind", .str "company")],
  .obj [("type", .str "fact"), ("content", .str "User works at Kraklabs"),
        ("relationships", .arr [.obj [("edge", .str "fact_entity"),
                                      ("target_ref", .num 0)]])]])]

/-! Helper lemmas. -/

/-- Folding list-append over a list collects the per-element lists. -/
theorem foldl_append_flatMap {α β : Type} (g : β → List α) :
    ∀ (l : List β) (init : List α),
      l.foldl (fun acc c => acc ++ g c) init = init ++ l.flatMap g := by
  intro l
  induction l with
  | nil => intro init; simp
  | cons c rest ih =>
    intro init
    simp [List.foldl, ih (init ++ g c), List.append_assoc]

/-- Membership through `insertByDist`. -/
theorem mem_insertByDist (x y : SearchResult) :
    ∀ l : List SearchResult, x ∈ insertByDist y l ↔ x = y ∨ x ∈ l := by
  intro l
  induction l with
  | nil => simp [insertByDist]
  | cons z zs ih =>
    by_cases h : y.distance ≤ z.distance
    · simp [insertByDist, h]
    · simp [insertByDist, h, ih]
      tauto

/-- Membership through `sortByDistance`. -/
theorem mem_sortByDistance (x : SearchResult) :
    ∀ l : List SearchResult, x ∈ sortByDistance l ↔ x ∈ l := by
  intro l
  induction l with
  | nil => simp [sortByDistance]
  | cons z zs ih =>
    simp [sortByDistance, List.foldr] at ih ⊢
    rw [mem_insertByDist]
    tauto

/-- `insertByDist` preserves ascending-distance ordering. -/
theorem pairwise_insertByDist (y : SearchResult) :
    ∀ l : List SearchResult,
      l.Pairwise (fun a b => a.distance ≤ b.distance) →
      (insertByDist y l).Pairwise (fun a b => a.distance ≤ b.distance) := by
  intro l
  induction l with
  | nil => intro _; simp [insertByDist]
  | cons z zs ih =>
    intro h
    rw [List.pairwise_cons] at h
    by_cases hle : y.distance ≤ z.distance
    · rw [insertByDist, if_pos hle, List.pairwise_cons]
      refine ⟨?_, List.pairwise_cons.mpr h⟩
      intro a ha
      rcases List.mem_cons.mp ha with rfl | ha
      · exact hle
      · exact le_trans hle (h.1 a ha)
    · rw [insertByDist, if_neg hle, List.pairwise_cons]
      refine ⟨?_, ih h.2⟩
      intro a ha
      rcases (mem_insertByDist a y zs).mp ha with rfl | ha
      · exact le_of_not_le hle
      · exact h.1 a ha

/-- `sortByDistance` sorts by ascending distance. -/
theorem sorted_sortByDistance :
    ∀ l : List SearchResult,
      (sortByDistance l).Pairwise (fun a b => a.distance ≤ b.distance) := by
  intro l
  induction l with
  | nil => simp [sortByDistance]
  | cons z zs ih =>
    simpa [sortByDistance, List.foldr] using
      pairwise_insertByDist z (sortByDistance zs) ih

/-- Membership in `GetFactsAboutEntity`: exactly the facts joined to the
entity through fact_entity, with no condition on the valid flag. -/
theorem mem_GetFactsAboutEntity (db : DB) (eid : String) (f : Fact) :
    f ∈ GetFactsAboutEntity db eid ↔
      f ∈ db.facts ∧ (f.id, eid) ∈ db.factEntity := by
  unfold GetFactsAboutEntity
  simp only [List.mem_flatMap, List.mem_filter, beq_iff_eq]
  constructor
  · rintro ⟨p, ⟨hp, hp2⟩, hf, hid⟩
    refine ⟨hf, ?_⟩
    have : (f.id, eid) = p := by
      cases p
      simp_all
    rw [this]
    exact hp
  · rintro ⟨hf, hedge⟩
    exact ⟨(f.id, eid), ⟨hedge, rfl⟩, hf, rfl⟩

/-- Membership in `GetRelatedEntities`: exactly the entities joined to the
fact through fact_entity. -/
theorem mem_GetRelatedEntities (db : DB) (fid : String) (en : Entity) :
    en ∈ GetRelatedEntities db fid ↔
      en ∈ db.entities ∧ (fid, en.id) ∈ db.factEntity := by
  unfold GetRelatedEntities
  simp only [List.mem_flatMap, List.mem_filter, beq_iff_eq]
  constructor
  · rintro ⟨p, ⟨hp, hp1⟩, hen, hid⟩
    refine ⟨hen, ?_⟩
    have : (fid, en.id) = p := by
      cases p
      simp_all
    rw [this]
    exact hp
  · rintro ⟨hen, hedge⟩
    exact ⟨(fid, en.id), ⟨hedge, rfl⟩, hen, rfl⟩

/-- The calls performed by `storeFact` are store-fact calls only. -/
theorem storeFact_trace_events (client : Querier) (args : JObj) (sa sc : String)
    (ev : CallEvent) (h : ev ∈ (storeFact client args sa sc).2) :
    ∃ r, ev = CallEvent.storeFact r := by
  unfold storeFact at h
  dsimp only at h
  split at h
  · simp at h
  · simp at h
    exact ⟨_, h⟩

/-- The calls performed by `storeDecision` are store-decision calls only. -/
theorem storeDecision_trace_events (client : Querier) (args : JObj) (sa sc : String)
    (ev : CallEvent) (h : ev ∈ (storeDecision client args sa sc).2) :
    ∃ r, ev = CallEvent.storeDecision r := by
  unfold storeDecision at h
  dsimp only at h
  split at h
  · simp at h
  · split at h
    · simp at h
    · simp at h
      exact ⟨_, h⟩

/-- The calls performed by `storeEntity` are store-entity calls only. -/
theorem storeEntity_trace_events (client : Querier) (args : JObj) (sa : String)
    (ev : CallEvent) (h : ev ∈ (storeEntity client args sa).2) :
    ∃ r, ev = CallEvent.storeEntity r := by
  unfold storeEntity at h
  dsimp only at h
  split at h
  · simp at h
  · split at h
    · simp at h
    · split at h
      · simp at h
      · simp at h
        exact ⟨_, h⟩

/-- The calls performed by `storeEvent` are store-event calls only. -/
theorem storeEvent_trace_events (client : Querier) (args : JObj) (sa sc : String)
    (ev : CallEvent) (h : ev ∈ (storeEvent client args sa sc).2) :
    ∃ r, ev = CallEvent.storeEvent r := by
  unfold storeEvent at h
  dsimp only at h
  split at h
  · simp at h
  · split at h
    · simp at h
    · simp at h
      exact ⟨_, h⟩

/-- The calls performed by `storeTopic` are store-topic calls only. -/
theorem storeTopic_trace_events (client : Querier) (args : JObj)
    (ev : CallEvent) (h : ev ∈ (storeTopic client args).2) :
    ∃ r, ev = CallEvent.storeTopic r := by
  unfold storeTopic at h
  dsimp only at h
  split at h
  · simp at h
  · simp at h
    exact ⟨_, h⟩

/-- The calls performed by `storeNode` are node-store calls only: never a
relationship insertion, an invalidation, or a counter increment. -/
theorem storeNode_trace_events (client : Querier) (args : JObj) (nt : String)
    (ev : CallEvent) (h : ev ∈ (storeNode client args nt).2) :
    (∃ r, ev = CallEvent.storeFact r) ∨ (∃ r, ev = CallEvent.storeDecision r) ∨
    (∃ r, ev = CallEvent.storeEntity r) ∨ (∃ r, ev = CallEvent.storeEvent r) ∨
    (∃ r, ev = CallEvent.storeTopic r) := by
  unfold storeNode at h
  dsimp only at h
  split at h
  · split at h <;> rename_i heq <;>
      exact Or.inl (storeFact_trace_events _ _ _ _ ev
        (by rw [heq]; simpa using h))
  · split at h <;> rename_i heq <;>
      exact Or.inr (Or.inl (storeDecision_trace_events _ _ _ _ ev
        (by rw [heq]; simpa using h)))
  · split at h <;> rename_i heq <;>
      exact Or.inr (Or.inr (Or.inl (storeEntity_trace_events _ _ _ ev
        (by rw [heq]; simpa using h))))
  · split at h <;> rename_i heq <;>
      exact Or.inr (Or.inr (Or.inr (Or.inl (storeEvent_trace_events _ _ _ _ ev
        (by rw [heq]; simpa using h)))))
  · split at h <;> rename_i heq <;>
      exact Or.inr (Or.inr (Or.inr (Or.inr (storeTopic_trace_events _ _ ev
        (by rw [heq]; simpa using h)))))
  · simp at h

/-- One loop step of `resolveBatchRefs` appends exactly what the
claim-level resolution `resolveRefSpec` produces for that relationship. -/
theorem resolveBatchRefsStep_eq (stored : List BulkItem) (acc : List JVal)
    (rel : JVal) :
    resolveBatchRefsStep stored acc rel =
      acc ++ (resolveRefSpec stored rel).toList := by
  cases rel with
  | obj relMap =>
    unfold resolveBatchRefsStep resolveRefSpec
    cases h : jlookup relMap "target_ref" with
    | none => simp [h]
    | some refIdx =>
      simp only [h]
      by_cases hr : toInt refIdx < 0 ∨ (stored.length : Int) ≤ toInt refIdx
      · rw [if_pos hr]
        have hno : ¬(0 ≤ toInt refIdx ∧ (toInt refIdx).toNat < stored.length) := by
          omega
        rw [dif_neg hno]
        simp
      · rw [if_neg hr]
        have hin : 0 ≤ toInt refIdx ∧ (toInt refIdx).toNat < stored.length := by
          omega
        rw [dif_pos hin]
        have hget : stored.getD (toInt refIdx).toNat ⟨"", "", ""⟩ =
            stored.get ⟨(toInt refIdx).toNat, hin.2⟩ := by
          rw [List.getD_eq_getElem?_getD, List.getElem?_eq_getElem hin.2]
          rfl
        rw [hget]
        by_cases hid : (stored.get ⟨(toInt refIdx).toNat, hin.2⟩).nodeID = ""
        · rw [if_pos hid, if_pos hid]
          simp
        · rw [if_neg hid, if_neg hid]
          simp
  | null => simp [resolveBatchRefsStep, resolveRefSpec]
  | bool b => simp [resolveBatchRefsStep, resolveRefSpec]
  | num q => simp [resolveBatchRefsStep, resolveRefSpec]
  | str s => simp [resolveBatchRefsStep, resolveRefSpec]
  | arr xs => simp [resolveBatchRefsStep, resolveRefSpec]

/-- An unknown variant has no semantic-search rows. -/
theorem variantSearchRows_unknown (nt : String) (db : DB) (cand : IdxRows)
    (k : Nat)
    (h : ¬(nt = "fact" ∨ nt = "decision" ∨ nt = "entity" ∨ nt = "event")) :
    variantSearchRows nt db cand k = [] := by
  unfold variantSearchRows
  split <;> simp_all

/-- A member of the fact variant's semantic rows comes from a valid fact
row joined on its id. -/
theorem mem_factSearchRows (db : DB) (cand : IdxRows) (k : Nat)
    (r : SearchResult) (h : r ∈ factSearchRows db cand k) :
    ∃ f ∈ db.facts, f.id = r.id ∧ f.valid = true := by
  unfold factSearchRows at h
  have h2 := List.mem_of_mem_take h
  rw [mem_sortByDistance] at h2
  rw [foldl_append_flatMap] at h2
  simp only [List.nil_append, List.mem_flatMap, List.mem_filterMap] at h2
  obtain ⟨c, _, f, hf, hsome⟩ := h2
  by_cases hcond : f.id = c.1 ∧ f.valid = true
  · rw [if_pos hcond] at hsome
    obtain rfl := Option.some.injEq .. ▸ hsome
    injection hsome with he
    exact ⟨f, hf, by rw [← he], by rw [hcond.2]⟩
  · rw [if_neg hcond] at hsome
    exact absurd hsome (by simp)

/-- Members of the decision variant's semantic rows are decision-tagged. -/
theorem mem_decisionSearchRows_tag (db : DB) (cand : IdxRows) (k : Nat)
    (r : SearchResult) (h : r ∈ decisionSearchRows db cand k) :
    r.nodeType = "decision" := by
  unfold decisionSearchRows at h
  have h2 := List.mem_of_mem_take h
  rw [mem_sortByDistance] at h2
  rw [foldl_append_flatMap] at h2
  simp only [List.nil_append, List.mem_flatMap, List.mem_filterMap] at h2
  obtain ⟨c, _, d, _, hsome⟩ := h2
  by_cases hcond : d.id = c.1
  · rw [if_pos hcond] at hsome
    injection hsome with he
    rw [← he]
  · rw [if_neg hcond] at hsome
    exact absurd hsome (by simp)

/-- Members of the entity variant's semantic rows are entity-tagged. -/
theorem mem_entitySearchRows_tag (db : DB) (cand : IdxRows) (k : Nat)
    (r : SearchResult) (h : r ∈ entitySearchRows db cand k) :
    r.nodeType = "entity" := by
  unfold entitySearchRows at h
  have h2 := List.mem_of_mem_take h
  rw [mem_sortByDistance] at h2
  rw [foldl_append_flatMap] at h2
  simp only [List.nil_append, List.mem_flatMap, List.mem_filterMap] at h2
  obtain ⟨c, _, en, _, hsome⟩ := h2
  by_cases hcond : en.id = c.1
  · rw [if_pos hcond] at hsome
    injection hsome with he
    rw [← he]
  · rw [if_neg hcond] at hsome
    exact absurd hsome (by simp)

/-- Members of the event variant's semantic rows are event-tagged. -/
theorem mem_eventSearchRows_tag (db : DB) (cand : IdxRows) (k : Nat)
    (r : SearchResult) (h : r ∈ eventSearchRows db cand k) :
    r.nodeType = "event" := by
  unfold eventSearchRows at h
  have h2 := List.mem_of_mem_take h
  rw [mem_sortByDistance] at h2
  rw [foldl_append_flatMap] at h2
  simp only [List.nil_append, List.mem_flatMap, List.mem_filterMap] at h2
  obtain ⟨c, _, ev, _, hsome⟩ := h2
  by_cases hcond : ev.id = c.1
  · rw [if_pos hcond] at hsome
    injection hsome with he
    rw [← he]
  · rw [if_neg hcond] at hsome
    exact absurd hsome (by simp)

/-- A fact-tagged member of any variant's semantic rows comes from a valid
fact row. -/
theorem mem_variantSearchRows_fact (nt : String) (db : DB) (cand : IdxRows)
    (k : Nat) (r : SearchResult) (h : r ∈ variantSearchRows nt db cand k)
    (hft : r.nodeType = "fact") :
    ∃ f ∈ db.facts, f.id = r.id ∧ f.valid = true := by
  unfold variantSearchRows at h
  split at h
  · exact mem_factSearchRows db cand k r h
  · rw [mem_decisionSearchRows_tag db cand k r h] at hft
    simp at hft
  · rw [mem_entitySearchRows_tag db cand k r h] at hft
    simp at hft
  · rw [mem_eventSearchRows_tag db cand k r h] at hft
    simp at hft
  · simp at h

/-- `semanticCollect` flat-maps the per-variant rows over the requested
variants. -/
theorem semanticCollect_eq_flatMap (idxF : String → Int → Int → IdxRows)
    (db : DB) (nts : List String) (lim : Int) :
    semanticCollect idxF db nts lim =
      nts.flatMap (fun nt =>
        variantSearchRows nt db (idxF nt (lim * 5) 200) lim.toNat) := by
  unfold semanticCollect
  rw [foldl_append_flatMap]
  simp

/-- `semanticCollect` unfolds one requested variant at a time. -/
theorem semanticCollect_cons (idxF : String → Int → Int → IdxRows) (db : DB)
    (nt : String) (rest : List String) (lim : Int) :
    semanticCollect idxF db (nt :: rest) lim =
      variantSearchRows nt db (idxF nt (lim * 5) 200) lim.toNat ++
        semanticCollect idxF db rest lim := by
  rw [semanticCollect_eq_flatMap, semanticCollect_eq_flatMap, List.flatMap_cons]

/-- A member of the semantic-search loop accumulation comes from the
initial accumulator or from some requested variant's successful probe. -/
theorem semanticStep_foldl_mem
    (backendIdx : String → Int → Int → Except String IdxRows) (db : DB)
    (lim : Int) :
    ∀ (nts : List String) (acc : List SearchResult × List IdxCall)
      (r : SearchResult),
      r ∈ (nts.foldl (semanticStep backendIdx db lim) acc).1 →
      r ∈ acc.1 ∨ ∃ nt ∈ nts, ∃ cand, backendIdx nt (lim * 5) 200 = .ok cand ∧
        r ∈ variantSearchRows nt db cand lim.toNat := by
  intro nts
  induction nts with
  | nil =>
    intro acc r h
    exact Or.inl h
  | cons nt rest ih =>
    intro acc r h
    rw [List.foldl_cons] at h
    rcases ih (semanticStep backendIdx db lim acc nt) r h with hacc | ⟨nt2, hnt2, hrest⟩
    · unfold semanticStep at hacc
      by_cases hk : nt = "fact" ∨ nt = "decision" ∨ nt = "entity" ∨ nt = "event"
      · rw [if_pos hk] at hacc
        rcases hq : backendIdx nt (lim * 5) 200 with e | cand
        · rw [hq] at hacc
          exact Or.inl hacc
        · rw [hq] at hacc
          simp only [List.mem_append] at hacc
          rcases hacc with hacc | hacc
          · exact Or.inl hacc
          · exact Or.inr ⟨nt, List.mem_cons_self nt rest, cand, hq, hacc⟩
      · rw [if_neg hk] at hacc
        exact Or.inl hacc
    · exact Or.inr ⟨nt2, List.mem_cons_of_mem nt hnt2, hrest⟩

/-- With an always-successful index oracle, the semantic-search loop
accumulates exactly the collected tuples and one probe per requested known
variant, with k = 5·limit and ef = 200. -/
theorem semanticStep_foldl_ok (idxF : String → Int → Int → IdxRows) (db : DB)
    (lim : Int) :
    ∀ (nts : List String) (acc : List SearchResult × List IdxCall),
      nts.foldl (semanticStep (fun nt k ef => .ok (idxF nt k ef)) db lim) acc =
        (acc.1 ++ semanticCollect idxF db nts lim,
         acc.2 ++ (nts.filter (fun nt =>
             nt = "fact" ∨ nt = "decision" ∨ nt = "entity" ∨ nt = "event")).map
           (fun nt => ⟨nt, lim * 5, 200⟩)) := by
  intro nts
  induction nts with
  | nil =>
    intro acc
    simp [semanticCollect]
  | cons nt rest ih =>
    intro acc
    rw [List.foldl_cons, ih]
    rw [semanticCollect_cons]
    by_cases hk : nt = "fact" ∨ nt = "decision" ∨ nt = "entity" ∨ nt = "event"
    · have hstep : semanticStep (fun nt k ef => .ok (idxF nt k ef)) db lim acc nt =
          (acc.1 ++ variantSearchRows nt db (idxF nt (lim * 5) 200) lim.toNat,
           acc.2 ++ [⟨nt, lim * 5, 200⟩]) := by
        unfold semanticStep
        rw [if_pos hk]
      rw [hstep]
      rw [List.filter_cons_of_pos (by simpa using hk)]
      simp [List.append_assoc]
    · have hstep : semanticStep (fun nt k ef => .ok (idxF nt k ef)) db lim acc nt =
          acc := by
        unfold semanticStep
        rw [if_neg hk]
      rw [hstep]
      rw [List.filter_cons_of_neg (by simpa using hk)]
      rw [variantSearchRows_unknown nt db _ lim.toNat hk]
      simp

/-- A member of the exact-search loop accumulation comes from the initial
accumulator or from some requested variant's rows. -/
theorem exact_foldl_mem (scanOk : String → Bool) (db : DB) (q : String)
    (lim : Nat) :
    ∀ (nts : List String) (acc : List SearchResult) (r : SearchResult),
      r ∈ nts.foldl (fun acc nt =>
        if scanOk nt then acc ++ exactRows db q nt lim else acc) acc →
      r ∈ acc ∨ ∃ nt ∈ nts, r ∈ exactRows db q nt lim := by
  intro nts
  induction nts with
  | nil =>
    intro acc r h
    exact Or.inl h
  | cons nt rest ih =>
    intro acc r h
    rw [List.foldl_cons] at h
    rcases ih _ r h with hacc | ⟨nt2, hnt2, hrows⟩
    · by_cases hs : scanOk nt
      · rw [if_pos hs] at hacc
        rcases List.mem_append.mp hacc with hacc | hacc
        · exact Or.inl hacc
        · exact Or.inr ⟨nt, List.mem_cons_self nt rest, hacc⟩
      · rw [if_neg hs] at hacc
        exact Or.inl hacc
    · exact Or.inr ⟨nt2, List.mem_cons_of_mem nt hnt2, hrows⟩

/-- A fact-tagged member of any variant's exact-search rows comes from a
valid fact row. -/
theorem mem_exactRows_fact (db : DB) (q : String) (nt : String) (lim : Nat)
    (r : SearchResult) (h : r ∈ exactRows db q nt lim)
    (hft : r.nodeType = "fact") :
    ∃ f ∈ db.facts, f.id = r.id ∧ f.valid = true := by
  unfold exactRows at h
  split at h
  · have h2 := List.mem_of_mem_take h
    simp only [List.mem_map, List.mem_filter, decide_eq_true_eq] at h2
    obtain ⟨f, ⟨hf, hvalid, _⟩, rfl⟩ := h2
    exact ⟨f, hf, rfl, by simpa using hvalid⟩
  · have h2 := List.mem_of_mem_take h
    simp only [List.mem_map] at h2
    obtain ⟨d, _, rfl⟩ := h2
    simp at hft
  · have h2 := List.mem_of_mem_take h
    simp only [List.mem_map] at h2
    obtain ⟨en, _, rfl⟩ := h2
    simp at hft
  · have h2 := List.mem_of_mem_take h
    simp only [List.mem_map] at h2
    obtain ⟨ev, _, rfl⟩ := h2
    simp at hft
  · have h2 := List.mem_of_mem_take h
    simp only [List.mem_map] at h2
    obtain ⟨tp, _, rfl⟩ := h2
    simp at hft
  · simp at h

/-! Claim theorems. -/

/-- Claim C5: traversal symmetry over the fact_entity relation: for every
fact f and entity e, e is among the related entities of f if and only if f
is among the facts about e. -/
theorem traversal_symmetry (db : DB) (f : Fact) (en : Entity)
    (hf : f ∈ db.facts) (he : en ∈ db.entities) :
    en ∈ GetRelatedEntities db f.id ↔ f ∈ GetFactsAboutEntity db en.id := by
  rw [mem_GetRelatedEntities, mem_GetFactsAboutEntity]
  constructor
  · rintro ⟨_, hedge⟩
    exact ⟨hf, hedge⟩
  · rintro ⟨_, hedge⟩
    exact ⟨he, hedge⟩

/-- Witness for C5 at a concrete database: the symmetry instantiated at
`wDb`'s first fact and its entity, both directions realized. -/
theorem traversal_symmetry_witness :
    ({ id := "ent:1", name := "Sky", kind := "other", description := "",
       sourceAgent := "t", createdAt := 1, updatedAt := 1 } : Entity) ∈
      GetRelatedEntities wDb "fact:1" ↔
    ({ id := "fact:1", content := "sky is blue", category := "general",
       confidence := 1, sourceAgent := "t", sourceConversation := "",
       valid := true, createdAt := 1, updatedAt := 1 } : Fact) ∈
      GetFactsAboutEntity wDb "ent:1" := by
  have h := traversal_symmetry wDb
    { id := "fact:1", content := "sky is blue", category := "general",
      confidence := 1, sourceAgent := "t", sourceConversation := "",
      valid := true, createdAt := 1, updatedAt := 1 }
    { id := "ent:1", name := "Sky", kind := "other", description := "",
      sourceAgent := "t", createdAt := 1, updatedAt := 1 }
    (by simp [wDb]) (by simp [wDb])
  exact h

/-- Claim C10: the facts_about_entity / related_facts traversal returns all
facts joined through fact_entity regardless of the valid flag (invalidated
facts included), and related_facts is the same query. -/
theorem factsAboutEntity_ignores_valid (db : DB) (eid : String) (f : Fact) :
    (f ∈ GetFactsAboutEntity db eid ↔
      f ∈ db.facts ∧ (f.id, eid) ∈ db.factEntity) ∧
    GetRelatedFacts db eid = GetFactsAboutEntity db eid :=
  ⟨mem_GetFactsAboutEntity db eid f, rfl⟩

/-- Claim C6: a bulk ingest call whose items array is empty or has more
than 50 items fails with an invalid-argument error result, and no store
operation (no substrate call at all) is performed for any item. -/
theorem bulkStore_size_validation (client : Querier) (args : JObj)
    (itemSlice : List JVal)
    (hitems : jlookup args "items" = some (.arr itemSlice))
    (hsize : itemSlice.length = 0 ∨ maxBulkItems < itemSlice.length) :
    (BulkStore client args).1.isError = true ∧ (BulkStore client args).2 = [] := by
  unfold BulkStore
  rw [hitems]
  rcases hsize with h | h
  · simp [h, NewError]
  · have h0 : ¬(itemSlice.length = 0) := by
      unfold maxBulkItems at h
      omega
    simp [h0, h, NewError]

/-- Witness for C6 at a concrete call: an empty items array is rejected
with an error and an empty call trace. -/
theorem bulkStore_size_validation_witness :
    (BulkStore wClient [("items", .arr [])]).1.isError = true ∧
    (BulkStore wClient [("items", .arr [])]).2 = [] :=
  bulkStore_size_validation wClient [("items", .arr [])] [] rfl (Or.inl rfl)

/-- Claim C7: a store_entity request whose kind is not one of the seven
allowed entity kinds fails with an invalid-argument error, no entity is
created (no substrate call at all), and no coercion to a default kind
occurs. -/
theorem storeEntity_invalid_kind (client : Querier) (args : JObj) (name : String)
    (htype : jlookup args "type" = some (.str "entity"))
    (hname : jlookup args "name" = some (.str name)) (hname2 : name ≠ "")
    (hkind : validEntityKinds (GetStringArg args "kind" "") = false) :
    (Store client args).1.isError = true ∧ (Store client args).2 = [] := by
  have htype2 : GetStringArg args "type" "" = "entity" := by
    simp [GetStringArg, htype]
  have hname3 : GetStringArg args "name" "" = name := by
    simp [GetStringArg, hname]
  have hsn : ∃ e, storeEntity client args
      (GetStringArg args "source_agent" "unknown") = (.error e, []) := by
    unfold storeEntity
    rw [hname3]
    rw [if_neg hname2]
    by_cases hk : GetStringArg args "kind" "" = ""
    · rw [if_pos hk]
      exact ⟨_, rfl⟩
    · rw [if_neg hk, if_pos (by simp [hkind])]
      exact ⟨_, rfl⟩
  rcases hsn with ⟨e, he⟩
  have hnode : storeNode client args "entity" = (.error e, []) := by
    unfold storeNode
    simp [he]
  unfold Store
  rw [htype2]
  simp [hnode, NewError]

/-- Witness for C7 at a concrete request: kind "alien" is rejected with an
error result and no substrate call. -/
theorem storeEntity_invalid_kind_witness :
    (Store wClient [("type", .str "entity"), ("name", .str "T"),
      ("kind", .str "alien")]).1.isError = true ∧
    (Store wClient [("type", .str "entity"), ("name", .str "T"),
      ("kind", .str "alien")]).2 = [] :=
  storeEntity_invalid_kind wClient
    [("type", .str "entity"), ("name", .str "T"), ("kind", .str "alien")]
    "T" rfl rfl (by decide) rfl

/-- Claim C2: a store_fact request with content is always handed to the
storage client as a single request — never rejected for its category or
confidence — and that request carries the independently coerced values: an
unknown category becomes general and a confidence outside (0,1] becomes
0.8, while a known category and an in-range confidence pass through
unchanged. The result is exactly the client's response on the coerced
request, so the operation cannot fail for these reasons, and the stored
fact carries the coerced values. -/
theorem storeFact_coercion (client : Querier) (args : JObj)
    (sa sc content : String)
    (hcontent : jlookup args "content" = some (.str content))
    (hc : content ≠ "") :
    ∃ req : StoreFactRequest,
      storeFact client args sa sc =
        (client.storeFactR req, [.storeFact req]) ∧
      req.content = content ∧ req.sourceAgent = sa ∧
      req.sourceConversation = sc ∧
      (∀ cat, jlookup args "category" = some (.str cat) →
        validFactCategories cat = false → req.category = "general") ∧
      (∀ cat, jlookup args "category" = some (.str cat) →
        validFactCategories cat = true → req.category = cat) ∧
      (∀ conf : ℚ, jlookup args "confidence" = some (.num conf) →
        (conf ≤ 0 ∨ (1 : ℚ) < conf) → req.confidence = confDefault) ∧
      (∀ conf : ℚ, jlookup args "confidence" = some (.num conf) →
        ¬(conf ≤ 0 ∨ (1 : ℚ) < conf) → req.confidence = conf) := by
  have h1 : GetStringArg args "content" "" = content := by
    simp [GetStringArg, hcontent]
  unfold storeFact
  rw [h1, if_neg hc]
  refine ⟨_, rfl, rfl, rfl, rfl, ?_, ?_, ?_, ?_⟩
  · intro cat hcat hbad
    have h2 : GetStringArg args "category" "general" = cat := by
      simp [GetStringArg, hcat]
    dsimp only
    rw [h2, if_neg (by simp [hbad])]
  · intro cat hcat hgood
    have h2 : GetStringArg args "category" "general" = cat := by
      simp [GetStringArg, hcat]
    dsimp only
    rw [h2, if_pos hgood]
  · intro conf hconf hbad
    have h3 : GetFloat64Arg args "confidence" confDefault = conf := by
      simp [GetFloat64Arg, hconf]
    dsimp only
    rw [h3, if_pos hbad]
  · intro conf hconf hgood
    have h3 : GetFloat64Arg args "confidence" confDefault = conf := by
      simp [GetFloat64Arg, hconf]
    dsimp only
    rw [h3, if_neg hgood]

/-- Witness for C2 at two concrete requests exercising each coercion on
its own: an unknown category with an in-range confidence is stored with
category general and its given confidence, and a known category with an
out-of-range confidence is stored with its given category and confidence
0.8; neither request fails. -/
theorem storeFact_coercion_witness :
    (∃ req : StoreFactRequest,
      storeFact wClient [("content", .str "x"), ("category", .str "bogus"),
        ("confidence", .num (Rat.mk' 1 2))] "a" "c" =
        (wClient.storeFactR req, [.storeFact req]) ∧
      req.category = "general" ∧ req.confidence = Rat.mk' 1 2) ∧
    (∃ req : StoreFactRequest,
      storeFact wClient [("content", .str "x"), ("category", .str "technical"),
        ("confidence", .num 3)] "a" "c" =
        (wClient.storeFactR req, [.storeFact req]) ∧
      req.category = "technical" ∧ req.confidence = confDefault) := by
  constructor
  · obtain ⟨req, heq, _, _, _, hbadcat, _, _, hgoodconf⟩ :=
      storeFact_coercion wClient
        [("content", .str "x"), ("category", .str "bogus"),
         ("confidence", .num (Rat.mk' 1 2))] "a" "c" "x" rfl (by decide)
    exact ⟨req, heq, hbadcat "bogus" rfl (by decide),
      hgoodconf (Rat.mk' 1 2) rfl (by decide)⟩
  · obtain ⟨req, heq, _, _, _, _, hgoodcat, hbadconf, _⟩ :=
      storeFact_coercion wClient
        [("content", .str "x"), ("category", .str "technical"),
         ("confidence", .num 3)] "a" "c" "x" rfl (by decide)
    exact ⟨req, heq, hgoodcat "technical" rfl (by decide),
      hbadconf 3 rfl (Or.inr (by decide))⟩

/-- Claim C9: when a single mie_store call stores its node successfully but
the `invalidates` handling fails (bad id prefix, or the invalidation call
errors), the tool returns an error result; yet every node-store call
already performed stays performed (the node is persisted and the model has
no rollback operation), no relationship is inserted, and the total_stores
counter is not incremented. -/
theorem store_invalidation_failure (client : Querier) (args : JObj)
    (nodeType nodeID summary inval : String) (tr1 : List CallEvent)
    (htype : GetStringArg args "type" "" = nodeType) (hnt : nodeType ≠ "")
    (hnode : storeNode client args nodeType = (.ok (nodeID, summary), tr1))
    (hid : nodeID ≠ "")
    (hinv : GetStringArg args "invalidates" "" = inval) (hinvne : inval ≠ "")
    (hfail : inval.startsWith "fact:" = false ∨
      ∃ e, client.invalidateFactR inval nodeID ("Replaced by " ++ nodeID) = .error e) :
    (Store client args).1.isError = true ∧
    (∀ ev ∈ tr1, ev ∈ (Store client args).2) ∧
    (∀ tbl fl, CallEvent.addRelationship tbl fl ∉ (Store client args).2) ∧
    (∀ k, CallEvent.incrementCounter k ∉ (Store client args).2) := by
  have hshape : ∀ ev ∈ tr1,
      (∃ r, ev = CallEvent.storeFact r) ∨ (∃ r, ev = CallEvent.storeDecision r) ∨
      (∃ r, ev = CallEvent.storeEntity r) ∨ (∃ r, ev = CallEvent.storeEvent r) ∨
      (∃ r, ev = CallEvent.storeTopic r) := by
    intro ev hev
    exact storeNode_trace_events client args nodeType ev (by rw [hnode]; exact hev)
  have hhi : ∃ msg tr2, handleInvalidation client args nodeID =
      ((some (NewError msg), ""), tr2) ∧
      (tr2 = [] ∨ tr2 = [CallEvent.invalidateFact inval nodeID ("Replaced by " ++ nodeID)]) := by
    by_cases hpre : inval.startsWith "fact:" = true
    · have herr : ∃ e, client.invalidateFactR inval nodeID
          ("Replaced by " ++ nodeID) = .error e := by
        rcases hfail with hbad | he
        · rw [hpre] at hbad
          exact absurd hbad (by simp)
        · exact he
      rcases herr with ⟨e, herr⟩
      refine ⟨"Failed to invalidate fact " ++ inval ++ ": " ++ e,
        [CallEvent.invalidateFact inval nodeID ("Replaced by " ++ nodeID)],
        ?_, Or.inr rfl⟩
      unfold handleInvalidation
      rw [hinv, if_neg hinvne]
      rw [if_neg (by simp [hpre])]
      dsimp only
      rw [herr]
    · refine ⟨"invalidates must reference a fact ID (got \"" ++ inval ++ "\")",
        [], ?_, Or.inl rfl⟩
      unfold handleInvalidation
      rw [hinv, if_neg hinvne]
      rw [if_pos (by simp [hpre])]
  rcases hhi with ⟨msg, tr2, hhi, htr2⟩
  have hmain : Store client args = (NewError msg, tr1 ++ tr2) := by
    unfold Store
    rw [htype, if_neg hnt, hnode]
    dsimp only
    rw [if_neg hid, hhi]
  rw [hmain]
  refine ⟨rfl, ?_, ?_, ?_⟩
  · intro ev hev
    simp [hev]
  · intro tbl fl hmem
    rw [List.mem_append] at hmem
    rcases hmem with hmem | hmem
    · rcases hshape _ hmem with ⟨r, h⟩ | ⟨r, h⟩ | ⟨r, h⟩ | ⟨r, h⟩ | ⟨r, h⟩ <;> simp at h
    · rcases htr2 with rfl | rfl <;> simp at hmem
  · intro k hmem
    rw [List.mem_append] at hmem
    rcases hmem with hmem | hmem
    · rcases hshape _ hmem with ⟨r, h⟩ | ⟨r, h⟩ | ⟨r, h⟩ | ⟨r, h⟩ | ⟨r, h⟩ <;> simp at h
    · rcases htr2 with rfl | rfl <;> simp at hmem

/-- Witness for C9 at a concrete call: a fact store whose `invalidates`
argument lacks the `fact:` prefix — the result is an error, the store call
stays in the trace, and no relationship or counter call appears. -/
theorem store_invalidation_failure_witness :
    (Store wClient [("type", .str "fact"), ("content", .str "x"),
      ("invalidates", .str "oops")]).1.isError = true ∧
    (∀ ev ∈ [CallEvent.storeFact wFactReq],
      ev ∈ (Store wClient [("type", .str "fact"), ("content", .str "x"),
        ("invalidates", .str "oops")]).2) ∧
    (∀ tbl fl, CallEvent.addRelationship tbl fl ∉
      (Store wClient [("type", .str "fact"), ("content", .str "x"),
        ("invalidates", .str "oops")]).2) ∧
    (∀ k, CallEvent.incrementCounter k ∉
      (Store wClient [("type", .str "fact"), ("content", .str "x"),
        ("invalidates", .str "oops")]).2) :=
  store_invalidation_failure wClient
    [("type", .str "fact"), ("content", .str "x"), ("invalidates", .str "oops")]
    "fact" "fact:w1"
    ("Content: \"x\"\nCategory: general | Confidence: " ++
      toString confDefault ++ " | Source: unknown")
    "oops" [CallEvent.storeFact wFactReq]
    rfl (by decide) rfl (by decide) rfl (by decide) (Or.inl rfl)

/-- Claim C8: in the list tool, a `sort_by` naming no column of the node
type makes the emitted query order by created_at, an unspecified limit
defaults to 20, and a limit above the maximum is capped at 100. -/
theorem listTool_defaults (args : JObj) (nodeType : String)
    (htype : jlookup args "node_type" = some (.str nodeType))
    (htbl : nodeTypeToTable nodeType ≠ "") :
    (∀ s, jlookup args "sort_by" = some (.str s) →
      (columnsListForNodeType nodeType).contains s = false →
      Except.map (fun q => q.orderField) (ListTool args) = .ok "created_at") ∧
    (jlookup args "limit" = none →
      Except.map (fun q => q.limit) (ListTool args) = .ok 20) ∧
    (∀ n : ℚ, jlookup args "limit" = some (.num n) → 100 < ratTrunc n →
      Except.map (fun q => q.limit) (ListTool args) = .ok 100) := by
  have h1 : GetStringArg args "node_type" "" = nodeType := by
    simp [GetStringArg, htype]
  refine ⟨?_, ?_, ?_⟩
  · intro s hs hbad
    have h2 : GetStringArg args "sort_by" "created_at" = s := by
      simp [GetStringArg, hs]
    have hmem : s ∉ columnsListForNodeType nodeType := by
      simpa using hbad
    simp [ListTool, ListNodes, Except.map, h1, h2, hmem, htbl]
  · intro hnolimit
    have h2 : GetIntArg args "limit" 20 = 20 := by
      simp [GetIntArg, hnolimit]
    simp [ListTool, ListNodes, Except.map, h1, h2, htbl]
  · intro n hn hbig
    have h2 : GetIntArg args "limit" 20 = ratTrunc n := by
      simp [GetIntArg, hn]
    have h3 : ¬(ratTrunc n ≤ 0) := by omega
    simp [ListTool, ListNodes, Except.map, h1, h2, hbig, htbl, h3]

/-- Witness for C8 at concrete calls: for node type fact, an unknown
sort_by of "bogus" yields ordering by created_at with the default limit,
and a limit of 500 is capped at 100. -/
theorem listTool_defaults_witness :
    (Except.map (fun q => q.orderField)
      (ListTool [("node_type", .str "fact"), ("sort_by", .str "bogus")]) =
        .ok "created_at") ∧
    (Except.map (fun q => q.limit)
      (ListTool [("node_type", .str "fact"), ("sort_by", .str "bogus")]) =
        .ok 20) ∧
    (Except.map (fun q => q.limit)
      (ListTool [("node_type", .str "fact"), ("limit", .num 500)]) =
        .ok 100) := by
  refine ⟨?_, ?_, ?_⟩
  · exact (listTool_defaults [("node_type", .str "fact"), ("sort_by", .str "bogus")]
      "fact" rfl (by decide)).1 "bogus" rfl (by decide)
  · exact (listTool_defaults [("node_type", .str "fact"), ("sort_by", .str "bogus")]
      "fact" rfl (by decide)).2.1 rfl
  · exact (listTool_defaults [("node_type", .str "fact"), ("limit", .num 500)]
      "fact" rfl (by decide)).2.2 500 rfl (by decide)

/-- Claim C1: bulk intra-batch reference resolution: every relationship
with `target_ref = j` resolves to the id assigned to item j when item j
stored successfully (the built relationship carries that id as target_id),
and is silently dropped when j is out of range or item j failed — exactly
`resolveRefSpec`, the claim's per-relationship description; and a batch
that passes the size validation always produces a non-error result, so the
rest of the batch still succeeds. -/
theorem bulk_ref_resolution :
    (∀ (stored : List BulkItem) (rels : List JVal),
      resolveBatchRefs (.arr rels) stored =
        rels.filterMap (resolveRefSpec stored)) ∧
    (∀ (client : Querier) (args : JObj) (itemSlice : List JVal),
      jlookup args "items" = some (.arr itemSlice) →
      itemSlice.length ≠ 0 → itemSlice.length ≤ maxBulkItems →
      (BulkStore client args).1.isError = false) := by
  constructor
  · have key : ∀ (stored : List BulkItem) (l : List JVal) (acc : List JVal),
        l.foldl (resolveBatchRefsStep stored) acc =
          acc ++ l.filterMap (resolveRefSpec stored) := by
      intro stored l
      induction l with
      | nil => intro acc; simp
      | cons r rest ih =>
        intro acc
        rw [List.foldl_cons, ih, resolveBatchRefsStep_eq]
        rw [List.filterMap_cons]
        cases h : resolveRefSpec stored r <;> simp [h]
    intro stored rels
    unfold resolveBatchRefs
    dsimp only
    rw [key stored rels []]
    simp
  · intro client args itemSlice hitems hne hle
    unfold BulkStore
    rw [hitems]
    dsimp only
    rw [if_neg hne]
    rw [if_neg (by omega : ¬(maxBulkItems < itemSlice.length))]
    rcases hb : bulkStoreItems client 0 itemSlice with ⟨stored, errors1, tr1⟩
    rcases hp : bulkPhase2 client stored 0 (itemSlice.zip stored) with
      ⟨errors2, relMessages, tr2⟩
    simp [NewResult]

/-- Witness for C1 at concrete inputs: a `target_ref` to a stored item
resolves to its id, one to a failed item and one out of range are dropped,
and a concrete two-item batch with a cross reference succeeds. -/
theorem bulk_ref_resolution_witness :
    resolveBatchRefs (.arr [
      .obj [("edge", .str "fact_entity"), ("target_ref", .num 0)],
      .obj [("edge", .str "fact_entity"), ("target_ref", .num 1)],
      .obj [("edge", .str "fact_entity"), ("target_ref", .num 99)]]) wStored =
      [.obj [("edge", .str "fact_entity"), ("target_id", .str "ent:ref0001"),
             ("role", .null)]] ∧
    (BulkStore wClient wBulkArgs).1.isError = false := by
  constructor
  · rw [bulk_ref_resolution.1 wStored]
    rfl
  · exact bulk_ref_resolution.2 wClient wBulkArgs
      [.obj [("type", .str "entity"), ("name", .str "Kraklabs"),
             ("kind", .str "company")],
       .obj [("type", .str "fact"), ("content", .str "User works at Kraklabs"),
             ("relationships", .arr [.obj [("edge", .str "fact_entity"),
                                           ("target_ref", .num 0)]])]]
      rfl (by decide) (by decide)

/-- Membership through the final global truncation of the search loops. -/
theorem mem_of_mem_truncate {α : Type} (x : α) (n : Nat) (l : List α)
    (h : x ∈ if n < l.length then l.take n else l) : x ∈ l := by
  split at h
  · exact List.mem_of_mem_take h
  · exact h

/-- Claim C3: every fact returned by semantic search and every fact
returned by exact search corresponds to a fact row with valid = true;
invalidated facts never appear in either search's results. -/
theorem search_fact_results_valid :
    (∀ (emb : Option (Except String Unit))
       (backendIdx : String → Int → Int → Except String IdxRows) (db : DB)
       (nodeTypes : List String) (lim : Int)
       (res : List SearchResult) (calls : List IdxCall),
      SemanticSearch emb backendIdx db nodeTypes lim = .ok (res, calls) →
      ∀ r ∈ res, r.nodeType = "fact" →
        ∃ f ∈ db.facts, f.id = r.id ∧ f.valid = true) ∧
    (∀ (scanOk : String → Bool) (db : DB) (q : String)
       (nodeTypes : List String) (lim : Int),
      ∀ r ∈ ExactSearch scanOk db q nodeTypes lim, r.nodeType = "fact" →
        ∃ f ∈ db.facts, f.id = r.id ∧ f.valid = true) := by
  constructor
  · intro emb backendIdx db nodeTypes lim res calls h r hr hft
    rcases emb with _ | g
    · simp [SemanticSearch] at h
    · rcases g with e | u
      · simp [SemanticSearch] at h
      · unfold SemanticSearch at h
        dsimp only at h
        injection h with h2
        simp only [Prod.mk.injEq] at h2
        obtain ⟨h2a, h2b⟩ := h2
        rw [← h2a] at hr
        have hr2 := mem_of_mem_truncate _ _ _ hr
        rw [mem_sortByDistance] at hr2
        rcases semanticStep_foldl_mem backendIdx db _ _ _ r hr2 with hnil | hsome
        · simp at hnil
        · obtain ⟨nt, _, cand, _, hrows⟩ := hsome
          exact mem_variantSearchRows_fact nt db cand _ r hrows hft
  · intro scanOk db q nodeTypes lim r hr hft
    unfold ExactSearch at hr
    dsimp only at hr
    have hr2 := mem_of_mem_truncate _ _ _ hr
    rcases exact_foldl_mem scanOk db q _ _ _ r hr2 with hnil | hsome
    · simp at hnil
    · obtain ⟨nt, _, hrows⟩ := hsome
      exact mem_exactRows_fact db q nt _ r hrows hft

/-- Witness for C3 at concrete searches over `wDb` (one valid and one
invalidated fact): the fact result returned by each search corresponds to
a valid fact row. -/
theorem search_fact_results_valid_witness :
    (∃ f ∈ wDb.facts, f.id = "fact:1" ∧ f.valid = true) ∧
    (∃ f ∈ wDb.facts, f.id = "fact:1" ∧ f.valid = true) := by
  constructor
  · exact search_fact_results_valid.1 (some (.ok ()))
      (fun nt k ef => .ok (wIdx nt k ef)) wDb ["fact"] 10
      [{ nodeType := "fact", id := "fact:1", content := "sky is blue",
         detail := "general", distance := 2 }]
      [⟨"fact", 50, 200⟩] rfl
      { nodeType := "fact", id := "fact:1", content := "sky is blue",
        detail := "general", distance := 2 }
      (by simp) rfl
  · exact search_fact_results_valid.2 (fun _ => true) wDb "sky" ["fact"] 10
      { nodeType := "fact", id := "fact:1", content := "sky is blue",
        detail := "general", distance := 0 }
      (by rw [show ExactSearch (fun _ => true) wDb "sky" ["fact"] 10 =
          [{ nodeType := "fact", id := "fact:1", content := "sky is blue",
             detail := "general", distance := 0 }] from rfl]
          simp) rfl

/-- Claim C4: semantic search over requested variants with a positive
limit probes each requested variant's index with candidate pool ef = 200
and k = 5·limit, collects the (result, distance) tuples across variants,
sorts them by ascending distance, and truncates to at most limit results:
the probe list is exactly one (variant, 5·limit, 200) call per requested
variant, and the result is the distance-sorted truncation of the collected
tuples — sorted ascending, of length at most limit, and with every result
one of the collected tuples (its distance preserved). -/
theorem semanticSearch_spec (idxF : String → Int → Int → IdxRows) (db : DB)
    (nodeTypes : List String) (lim : Int) (res : List SearchResult)
    (calls : List IdxCall) (hpos : 0 < lim) (hne : nodeTypes ≠ [])
    (h : SemanticSearch (some (.ok ())) (fun nt k ef => .ok (idxF nt k ef))
      db nodeTypes lim = .ok (res, calls)) :
    calls = (nodeTypes.filter (fun nt =>
        nt = "fact" ∨ nt = "decision" ∨ nt = "entity" ∨ nt = "event")).map
      (fun nt => ⟨nt, lim * 5, 200⟩) ∧
    res = (sortByDistance (semanticCollect idxF db nodeTypes lim)).take
      lim.toNat ∧
    res.Pairwise (fun a b => a.distance ≤ b.distance) ∧
    res.length ≤ lim.toNat ∧
    (∀ r ∈ res, r ∈ semanticCollect idxF db nodeTypes lim) := by
  unfold SemanticSearch at h
  rw [if_neg (by omega : ¬(lim ≤ 0)), if_neg hne] at h
  dsimp only at h
  rw [semanticStep_foldl_ok idxF db lim nodeTypes ([], [])] at h
  simp only [List.nil_append] at h
  injection h with h2
  simp only [Prod.mk.injEq] at h2
  obtain ⟨h2a, h2b⟩ := h2
  have hcall : calls = (nodeTypes.filter (fun nt =>
      nt = "fact" ∨ nt = "decision" ∨ nt = "entity" ∨ nt = "event")).map
      (fun nt => ⟨nt, lim * 5, 200⟩) := by
    rw [← h2b]
  have hres : res = (sortByDistance
      (semanticCollect idxF db nodeTypes lim)).take lim.toNat := by
    rw [← h2a]
    split
    · rfl
    · rename_i hlen
      rw [List.take_of_length_le (by omega)]
  refine ⟨hcall, hres, ?_, ?_, ?_⟩
  · rw [hres]
    exact (sorted_sortByDistance _).sublist (List.take_sublist _ _)
  · rw [hres]
    exact (List.length_take_le _ _)
  · intro r hrmem
    rw [hres] at hrmem
    have := List.mem_of_mem_take hrmem
    rw [mem_sortByDistance] at this
    exact this

/-- Witness for C4 at a concrete search over `wDb`: the fact index is
probed once with k = 50 and ef = 200, and the single valid fact is
returned with its distance. -/
theorem semanticSearch_spec_witness :
    [(⟨"fact", 50, 200⟩ : IdxCall)] = ((["fact"] : List String).filter
      (fun nt => nt = "fact" ∨ nt = "decision" ∨ nt = "entity" ∨
        nt = "event")).map (fun nt => (⟨nt, 10 * 5, 200⟩ : IdxCall)) ∧
    [({ nodeType := "fact", id := "fact:1", content := "sky is blue",
        detail := "general", distance := 2 } : SearchResult)] =
      (sortByDistance (semanticCollect wIdx wDb ["fact"] 10)).take
        (10 : Int).toNat ∧
    ([({ nodeType := "fact", id := "fact:1", content := "sky is blue",
         detail := "general", distance := 2 } : SearchResult)]).Pairwise
      (fun a b => a.distance ≤ b.distance) ∧
    ([({ nodeType := "fact", id := "fact:1", content := "sky is blue",
         detail := "general", distance := 2 } : SearchResult)]).length ≤
      (10 : Int).toNat ∧
    (∀ r ∈ [({ nodeType := "fact", id := "fact:1", content := "sky is blue",
               detail := "general", distance := 2 } : SearchResult)],
      r ∈ semanticCollect wIdx wDb ["fact"] 10) :=
  semanticSearch_spec wIdx wDb ["fact"] 10
    [{ nodeType := "fact", id := "fact:1", content := "sky is blue",
       detail := "general", distance := 2 }]
    [⟨"fact", 50, 200⟩] (by decide) (by decide) rfl
